import Mathlib

/-!
Verification of the docker-on-top mount-coordination subsystem.

We shallowly embed the active-mount registry operations `activateVolume` and
`deactivateVolume` (file `activemount.go`, current revision: the one whose
signatures match the callers in `dockerOnTop.go`), the `Unmount` orchestration
and the boot-recovery loop of `NewDockerOnTop` (file `dockerOnTop.go`).

Modelling choices:
- The per-volume registry directory is a list of (file name, file content)
  pairs, in directory order.  The file name is the request id.
- A record file's content is either a well-formed JSON record with an integer
  `UsageCount` field (Go `int`, modelled as `Int`), or a payload that
  `json.Unmarshal` rejects (`FileContent.invalid`).
- `ReadDir n` yields the first `min n (length dir)` entries; on an empty
  directory it reports `io.EOF`.
- Spurious I/O failures (directory listing, open/read/close of an existing
  file, `os.WriteFile`, `os.Remove`) are injected through a `Faults` record;
  each flag makes the corresponding call site fail, as the corresponding Go
  error branch does.  `os.Open` on a file that is absent from the directory
  reports `IsNotExist`, never an injected failure.
-/


/-- Content of one active-mount record file: either a well-formed serialized
`activeMount` structure (`UsageCount` field), or bytes that fail to parse. -/
inductive FileContent
  | record (usageCount : Int)
  | invalid
deriving DecidableEq

/-- A volume's registry directory (`activemounts/`): entries are record files,
keyed by request id. -/
abbrev Dir := List (String × FileContent)

/-- Read a record file: the Go code opens `activemountsdir(name) + requestId`
and reads it whole; `none` models `os.IsNotExist`. -/
def lookupFile : Dir → String → Option FileContent
  | [], _ => none
  | e :: rest, name => if e.1 = name then some e.2 else lookupFile rest name

/-- Write (create or overwrite) a record file, as `os.WriteFile` does. -/
def writeFile : Dir → String → FileContent → Dir
  | [], name, c => [(name, c)]
  | e :: rest, name, c => if e.1 = name then (name, c) :: rest else e :: writeFile rest name c

/-- Delete a record file, as `os.Remove` does. -/
def removeFile : Dir → String → Dir
  | [], _ => []
  | e :: rest, name => if e.1 = name then removeFile rest name else e :: removeFile rest name

/-- The file names of a directory's entries. -/
def namesOf (dir : Dir) : List String := dir.map Prod.fst

/-- Errors produced by `activateVolume` / `deactivateVolume`, one constructor
per `fmt.Errorf` site in `activemount.go`. -/
inductive DotErr
  | failedToListActivemounts
  | fileCannotBeRead
  | fileCannotBeClosed
  | contentsInvalid
  | existsButCannotBeOpened
  | cannotBeWritten
  | noActiveMountFiles
  | missingButExpected
  | couldNotBeOpened
  | couldNotBeDeleted
  | couldNotBeUpdated
deriving DecidableEq

/-- Injected I/O failures.  A `true` flag makes the corresponding operation
fail (for open/read/close: only when the record file exists, since opening an
absent file reports `IsNotExist` instead). -/
structure Faults where
  readDirFail : Bool
  openFail : Bool
  readAllFail : Bool
  closeFail : Bool
  writeFail : Bool
  removeFail : Bool
deriving DecidableEq

/-- Fault-free environment. -/
def noFaults : Faults := ⟨false, false, false, false, false, false⟩

/-- Result of `activateVolume`: the Go function returns `(doMountFs, err)` and
mutates the registry directory via `os.WriteFile`. -/
structure ActivateResult where
  doMountFs : Bool
  err : Option DotErr
  dir : Dir
deriving DecidableEq

/-- Result of `deactivateVolume`: the Go function returns `(doUnmountFs, err)`
and mutates the registry directory via `os.WriteFile` / `os.Remove`. -/
structure DeactivateResult where
  doUnmountFs : Bool
  err : Option DotErr
  dir : Dir
deriving DecidableEq

/-- Shallow embedding of `DockerOnTop.activateVolume` (activemount.go).
First `ReadDir(1)`: non-EOF failure aborts, `io.EOF` (empty directory) sets
`doMountFs := true`, an entry sets `doMountFs := false`.  Then the record file
for the request id is opened: if it exists it is read and unmarshalled (a
parse failure aborts), if absent a fresh record with `UsageCount: 0` is used.
The count is incremented and the record is written back. -/
def activateVolume (f : Faults) (requestId : String) (dir : Dir) : ActivateResult :=
  if f.readDirFail then ⟨false, some .failedToListActivemounts, dir⟩
  else
    let doMountFs := dir.isEmpty
    match lookupFile dir requestId with
    | some content =>
      if f.openFail then ⟨false, some .existsButCannotBeOpened, dir⟩
      else if f.readAllFail then ⟨false, some .fileCannotBeRead, dir⟩
      else if f.closeFail then ⟨false, some .fileCannotBeClosed, dir⟩
      else
        match content with
        | .invalid => ⟨false, some .contentsInvalid, dir⟩
        | .record c =>
          if f.writeFail then ⟨false, some .cannotBeWritten, dir⟩
          else ⟨doMountFs, none, writeFile dir requestId (.record (c + 1))⟩
    | none =>
      if f.writeFail then ⟨false, some .cannotBeWritten, dir⟩
      else ⟨doMountFs, none, writeFile dir requestId (.record (0 + 1))⟩

/-- The `otherVolumesPresent` expression of `deactivateVolume`:
`len(dirEntries) > 1 || dirEntries[0].Name() != request.ID`, where
`dirEntries` is the result of `ReadDir(2)`. -/
def otherVolumesPresent (dirEntries : Dir) (requestId : String) : Bool :=
  decide (dirEntries.length > 1) || (dirEntries.headD ("", FileContent.invalid)).1 != requestId

/-- Shallow embedding of `DockerOnTop.deactivateVolume` (activemount.go).
First `ReadDir(2)`: `io.EOF` (empty directory) returns `(true, error)`, other
failures abort with `(false, error)`.  Then `otherVolumesPresent` is computed,
the record file for the request id is loaded (absent: return
`(!otherVolumesPresent, error)`; unreadable or unparsable: abort), the count
is decremented; at zero the file is removed and `!otherVolumesPresent` is
returned, otherwise the decremented record is written back and `false` is
returned. -/
def deactivateVolume (f : Faults) (requestId : String) (dir : Dir) : DeactivateResult :=
  if f.readDirFail then ⟨false, some .failedToListActivemounts, dir⟩
  else if dir.isEmpty then ⟨true, some .noActiveMountFiles, dir⟩
  else
    let others := otherVolumesPresent (dir.take 2) requestId
    match lookupFile dir requestId with
    | none => ⟨!others, some .missingButExpected, dir⟩
    | some content =>
      if f.openFail then ⟨false, some .couldNotBeOpened, dir⟩
      else if f.readAllFail then ⟨false, some .fileCannotBeRead, dir⟩
      else if f.closeFail then ⟨false, some .fileCannotBeClosed, dir⟩
      else
        match content with
        | .invalid => ⟨false, some .contentsInvalid, dir⟩
        | .record c =>
          if c - 1 = 0 then
            if f.removeFail then ⟨false, some .couldNotBeDeleted, dir⟩
            else ⟨!others, none, removeFile dir requestId⟩
          else
            if f.writeFail then ⟨false, some .couldNotBeUpdated, dir⟩
            else ⟨false, none, writeFile dir requestId (.record (c - 1))⟩

/-- One call in a trace: the caller's request id plus the I/O faults the
environment injects into that call. -/
inductive Op
  | activate (requestId : String) (f : Faults)
  | deactivate (requestId : String) (f : Faults)

/-- Trace state: the registry directory plus counters of the decisions and
errors the calls returned so far. -/
structure RunState where
  dir : Dir
  mountsTrue : Nat
  unmountsTrue : Nat
  errs : Nat
deriving DecidableEq

/-- Apply one call to the trace state, recording its decision and whether it
returned an error. -/
def step (s : RunState) (op : Op) : RunState :=
  match op with
  | .activate id f =>
    let r := activateVolume f id s.dir
    ⟨r.dir, s.mountsTrue + (if r.doMountFs then 1 else 0), s.unmountsTrue,
      s.errs + (if r.err.isSome then 1 else 0)⟩
  | .deactivate id f =>
    let r := deactivateVolume f id s.dir
    ⟨r.dir, s.mountsTrue, s.unmountsTrue + (if r.doUnmountFs then 1 else 0),
      s.errs + (if r.err.isSome then 1 else 0)⟩

/-- Run a whole trace. -/
def run (ops : List Op) (s : RunState) : RunState := ops.foldl step s

/-- The volume's registry directory starts empty, with no decisions taken. -/
def startState : RunState := ⟨[], 0, 0, 0⟩

/-- Invariant carried along a trace: record-file names are distinct, and while
no call has failed, the surplus of "must mount" over "must unmount" decisions
is one exactly when the directory is non-empty. -/
def balanced (s : RunState) : Prop :=
  (namesOf s.dir).Nodup ∧
  (s.errs = 0 → s.mountsTrue = s.unmountsTrue + (if s.dir.isEmpty then 0 else 1))

/-- Modelled from the spec: the outcome of `volumeTreeOnBootReset` (file
volumeTree.go, not among the sources at hand).  Per the spec's
volume-tree-manager contract `resetOnBoot(volume) -> error-or-busy`: it
either succeeds (the volume had no active mount and its tree was reset),
reports "busy" (`syscall.EBUSY`: the kernel still has the volume's overlay
mounted from a prior process lifetime, so the reset must be skipped), or
fails with some other error. -/
inductive ResetOutcome
  | ok
  | busy
  | failed (e : Nat)
deriving DecidableEq

/-- Whether a reset outcome is an error other than "busy". -/
def ResetOutcome.isFailed : ResetOutcome → Bool
  | .failed _ => true
  | _ => false

/-- Shallow embedding of the boot-recovery loop of `NewDockerOnTop`
(dockerOnTop.go): for each entry of the dot root directory run the on-boot
tree reset; success and `errors.Is(resetErr, syscall.EBUSY)` continue the
sweep (the busy volume is skipped), any other error aborts startup with that
error.  The returned list collects the volumes whose trees were reset. -/
def newDockerOnTopResetLoop (reset : String → ResetOutcome) :
    List String → Except Nat (List String)
  | [] => Except.ok []
  | v :: rest =>
    match reset v with
    | .ok => (newDockerOnTopResetLoop reset rest).map (fun l => v :: l)
    | .busy => newDockerOnTopResetLoop reset rest
    | .failed e => Except.error e

/-- Reset behaviour used by the C7 witness: volume "a" is still mounted by
the kernel (busy), volume "b" has no active mount. -/
def resetBusyA : String → ResetOutcome :=
  fun v => if v = "a" then ResetOutcome.busy else ResetOutcome.ok

/-- Modelled from the spec: outcomes of the two collaborator calls `Unmount`
performs after deactivation — the `syscall.Unmount` of the overlay
mountpoint, and the post-unmount tree teardown `volumeTreePostUnmount`
(volumeTree.go is not among the sources at hand; the spec's
`teardownAfterUnmount(volume)` runs after a successful physical unmount).
`none` models success. -/
structure SysEnv where
  unmountErr : Option Nat
  postUnmountErr : Option Nat
deriving DecidableEq

/-- Errors `Unmount` reports to the docker daemon: a deactivation error
(wrapped as an internal error), the physical unmount error (returned
verbatim), or the tree-teardown error (returned from the cleanup). -/
inductive UnmountError
  | deactivateFailed (e : DotErr)
  | unmountSyscallFailed (e : Nat)
  | postUnmountFailed (e : Nat)
deriving DecidableEq

/-- Shallow embedding of `DockerOnTop.Unmount` (dockerOnTop.go), after the
exclusive lock on activemounts/ is taken: call `deactivateVolume`; on error,
wrap and return it; if `doUnmountFs` is true, run the physical unmount — a
failure is returned as-is with no further registry mutation — then the tree
teardown, whose error, if any, is the call's final result.  The second
component is the registry directory as the call leaves it. -/
def Unmount (env : SysEnv) (f : Faults) (requestId : String) (dir : Dir) :
    Option UnmountError × Dir :=
  let r := deactivateVolume f requestId dir
  match r.err with
  | some e => (some (.deactivateFailed e), r.dir)
  | none =>
    if r.doUnmountFs then
      match env.unmountErr with
      | some e => (some (.unmountSyscallFailed e), r.dir)
      | none =>
        match env.postUnmountErr with
        | some e => (some (.postUnmountFailed e), r.dir)
        | none => (none, r.dir)
    else (none, r.dir)

/-! Lemmas about the embedded operations, and the claim theorems. -/

theorem lookupFile_writeFile_self (dir : Dir) (name : String) (c : FileContent) :
    lookupFile (writeFile dir name c) name = some c := by
  induction dir with
  | nil => simp [writeFile, lookupFile]
  | cons e rest ih =>
    by_cases h : e.1 = name
    · simp [writeFile, lookupFile, h]
    · simp [writeFile, lookupFile, h, ih]

theorem writeFile_ne_nil (dir : Dir) (name : String) (c : FileContent) :
    writeFile dir name c ≠ [] := by
  cases dir with
  | nil => simp [writeFile]
  | cons e rest =>
    by_cases h : e.1 = name <;> simp [writeFile, h]

theorem ne_nil_of_lookupFile_eq_some {dir : Dir} {name : String} {x : FileContent}
    (h : lookupFile dir name = some x) : dir ≠ [] := by
  cases dir with
  | nil => simp [lookupFile] at h
  | cons e rest => simp

theorem lookupFile_removeFile_self (dir : Dir) (name : String) :
    lookupFile (removeFile dir name) name = none := by
  induction dir with
  | nil => simp [removeFile, lookupFile]
  | cons e rest ih =>
    by_cases h : e.1 = name
    · simp [removeFile, h, ih]
    · simp [removeFile, lookupFile, h, ih]

theorem mem_of_lookupFile_eq_some {dir : Dir} {name : String} {x : FileContent}
    (h : lookupFile dir name = some x) : (name, x) ∈ dir := by
  induction dir with
  | nil => simp [lookupFile] at h
  | cons e rest ih =>
    by_cases he : e.1 = name
    · simp [lookupFile, he] at h
      have he2 : e = (name, x) := by
        cases e with
        | mk a b => simp_all
      rw [← he2]
      exact List.mem_cons_self _ _
    · simp [lookupFile, he] at h
      exact List.mem_cons_of_mem _ (ih h)

theorem mem_writeFile {dir : Dir} {name : String} {c : FileContent} {e : String × FileContent}
    (h : e ∈ writeFile dir name c) : e ∈ dir ∨ e = (name, c) := by
  induction dir with
  | nil => simp [writeFile] at h; right; exact h
  | cons x rest ih =>
    by_cases hx : x.1 = name
    · simp [writeFile, hx] at h
      rcases h with h | h
      · right; exact h
      · left; exact List.mem_cons_of_mem _ h
    · simp [writeFile, hx] at h
      rcases h with h | h
      · left; simp [h]
      · rcases ih h with h2 | h2
        · left; exact List.mem_cons_of_mem _ h2
        · right; exact h2

theorem mem_namesOf_writeFile {dir : Dir} {name m : String} {c : FileContent}
    (h : m ∈ namesOf (writeFile dir name c)) : m ∈ namesOf dir ∨ m = name := by
  simp only [namesOf, List.mem_map] at h
  rcases h with ⟨e, he, rfl⟩
  rcases mem_writeFile he with h2 | h2
  · left; simp only [namesOf, List.mem_map]; exact ⟨e, h2, rfl⟩
  · right; rw [h2]

theorem nodup_namesOf_writeFile {dir : Dir} {name : String} {c : FileContent}
    (h : (namesOf dir).Nodup) : (namesOf (writeFile dir name c)).Nodup := by
  induction dir with
  | nil => simp [writeFile, namesOf]
  | cons e rest ih =>
    simp only [namesOf, List.map_cons, List.nodup_cons] at h
    by_cases he : e.1 = name
    · simp only [writeFile, he, if_pos, namesOf, List.map_cons, List.nodup_cons]
      refine ⟨?_, h.2⟩
      rw [← he]; exact h.1
    · simp only [writeFile, he, if_neg, not_false_iff, namesOf, List.map_cons, List.nodup_cons]
      refine ⟨?_, ih h.2⟩
      intro hmem
      rcases mem_namesOf_writeFile hmem with h2 | h2
      · exact h.1 h2
      · exact he h2

theorem mem_namesOf_removeFile {dir : Dir} {name m : String}
    (h : m ∈ namesOf (removeFile dir name)) : m ∈ namesOf dir := by
  induction dir with
  | nil => simpa [removeFile] using h
  | cons e rest ih =>
    by_cases he : e.1 = name
    · simp only [removeFile, he, if_pos] at h
      exact List.mem_cons_of_mem _ (ih h)
    · simp only [removeFile, he, if_neg, not_false_iff, namesOf, List.map_cons,
        List.mem_cons] at h
      rcases h with h | h
      · simp [namesOf, h]
      · exact List.mem_cons_of_mem _ (ih h)

theorem nodup_namesOf_removeFile {dir : Dir} {name : String}
    (h : (namesOf dir).Nodup) : (namesOf (removeFile dir name)).Nodup := by
  induction dir with
  | nil => simp [removeFile, namesOf]
  | cons e rest ih =>
    simp only [namesOf, List.map_cons, List.nodup_cons] at h
    by_cases he : e.1 = name
    · simp only [removeFile, he, if_pos]
      exact ih h.2
    · simp only [removeFile, he, if_neg, not_false_iff, namesOf, List.map_cons,
        List.nodup_cons]
      exact ⟨fun hm => h.1 (mem_namesOf_removeFile hm), ih h.2⟩

theorem removeFile_of_not_mem {dir : Dir} {name : String}
    (h : name ∉ namesOf dir) : removeFile dir name = dir := by
  induction dir with
  | nil => simp [removeFile]
  | cons e rest ih =>
    simp only [namesOf, List.map_cons, List.mem_cons, not_or] at h
    have he : e.1 ≠ name := fun hc => h.1 hc.symm
    simp only [removeFile, he, if_neg, not_false_iff]
    rw [ih h.2]

theorem mem_removeFile_of_mem {dir : Dir} {name : String} {e : String × FileContent}
    (hmem : e ∈ dir) (hne : e.1 ≠ name) : e ∈ removeFile dir name := by
  induction dir with
  | nil => simp at hmem
  | cons x rest ih =>
    rcases List.mem_cons.1 hmem with h | h
    · subst h
      simp only [removeFile, hne, if_neg, not_false_iff]
      exact List.mem_cons_self _ _
    · by_cases hx : x.1 = name
      · simp only [removeFile, hx, if_pos]
        exact ih h
      · simp only [removeFile, hx, if_neg, not_false_iff]
        exact List.mem_cons_of_mem _ (ih h)

theorem activateVolume_spec (f : Faults) (id : String) (dir : Dir) :
    ((activateVolume f id dir).err = none ∧
      (activateVolume f id dir).doMountFs = dir.isEmpty ∧
      ((lookupFile dir id = none ∧
         (activateVolume f id dir).dir = writeFile dir id (FileContent.record (0 + 1))) ∨
       (∃ c, lookupFile dir id = some (FileContent.record c) ∧
         (activateVolume f id dir).dir = writeFile dir id (FileContent.record (c + 1))))) ∨
    ((activateVolume f id dir).err ≠ none ∧
      (activateVolume f id dir).dir = dir ∧
      (activateVolume f id dir).doMountFs = false) := by
  by_cases h1 : f.readDirFail
  · right; simp [activateVolume, h1]
  cases hl : lookupFile dir id with
  | none =>
    by_cases hw : f.writeFail
    · right; simp [activateVolume, h1, hl, hw]
    · left
      refine ⟨?_, ?_, Or.inl ⟨rfl, ?_⟩⟩ <;> simp [activateVolume, h1, hl, hw]
  | some content =>
    by_cases ho : f.openFail
    · right; simp [activateVolume, h1, hl, ho]
    by_cases hr : f.readAllFail
    · right; simp [activateVolume, h1, hl, ho, hr]
    by_cases hc : f.closeFail
    · right; simp [activateVolume, h1, hl, ho, hr, hc]
    cases content with
    | invalid => right; simp [activateVolume, h1, hl, ho, hr, hc]
    | record c =>
      by_cases hw : f.writeFail
      · right; simp [activateVolume, h1, hl, ho, hr, hc, hw]
      · left
        refine ⟨?_, ?_, Or.inr ⟨c, rfl, ?_⟩⟩ <;> simp [activateVolume, h1, hl, ho, hr, hc, hw]

theorem deactivateVolume_spec (f : Faults) (id : String) (dir : Dir) :
    ((deactivateVolume f id dir).err ≠ none ∧ (deactivateVolume f id dir).dir = dir) ∨
    ((deactivateVolume f id dir).err = none ∧
      ∃ c, lookupFile dir id = some (FileContent.record c) ∧
        ((c - 1 = 0 ∧ deactivateVolume f id dir =
            ⟨!otherVolumesPresent (dir.take 2) id, none, removeFile dir id⟩) ∨
         (c - 1 ≠ 0 ∧ deactivateVolume f id dir =
            ⟨false, none, writeFile dir id (FileContent.record (c - 1))⟩))) := by
  by_cases h1 : f.readDirFail
  · left; simp [deactivateVolume, h1]
  by_cases h2 : dir.isEmpty
  · left; simp [deactivateVolume, h1, h2]
  cases hl : lookupFile dir id with
  | none => left; simp [deactivateVolume, h1, h2, hl]
  | some content =>
    by_cases ho : f.openFail
    · left; simp [deactivateVolume, h1, h2, hl, ho]
    by_cases hr : f.readAllFail
    · left; simp [deactivateVolume, h1, h2, hl, ho, hr]
    by_cases hc : f.closeFail
    · left; simp [deactivateVolume, h1, h2, hl, ho, hr, hc]
    cases content with
    | invalid => left; simp [deactivateVolume, h1, h2, hl, ho, hr, hc]
    | record c =>
      by_cases hz : c - 1 = 0
      · by_cases hrm : f.removeFail
        · left; simp [deactivateVolume, h1, h2, hl, ho, hr, hc, hz, hrm]
        · right
          refine ⟨?_, c, rfl, Or.inl ⟨hz, ?_⟩⟩ <;>
            simp [deactivateVolume, h1, h2, hl, ho, hr, hc, hz, hrm]
      · by_cases hw : f.writeFail
        · left; simp [deactivateVolume, h1, h2, hl, ho, hr, hc, hz, hw]
        · right
          refine ⟨?_, c, rfl, Or.inr ⟨hz, ?_⟩⟩ <;>
            simp [deactivateVolume, h1, h2, hl, ho, hr, hc, hz, hw]

/-- C1: for every `activateVolume` call on a volume's registry directory, the
returned `mustMountFs` is true exactly when the directory listing (up to one
entry) is empty, and false whenever at least one entry exists; in particular
a second activation by the same request id (its own record file is a
directory entry) returns false while the stored usage count is incremented. -/
theorem C1_activateVolume_mustMount (f : Faults) (id : String) (dir : Dir) :
    ((activateVolume f id dir).err = none →
      ((activateVolume f id dir).doMountFs = true ↔ dir = [])) ∧
    (dir ≠ [] → (activateVolume f id dir).doMountFs = false) ∧
    (∀ c : Int, lookupFile dir id = some (FileContent.record c) → f = noFaults →
      (activateVolume f id dir).doMountFs = false ∧
      lookupFile (activateVolume f id dir).dir id = some (FileContent.record (c + 1))) := by
  refine ⟨?_, ?_, ?_⟩
  · intro herr
    rcases activateVolume_spec f id dir with ⟨_, hmount, _⟩ | ⟨hne, _, _⟩
    · rw [hmount, List.isEmpty_iff]
    · exact absurd herr hne
  · intro hne
    rcases activateVolume_spec f id dir with ⟨_, hmount, _⟩ | ⟨_, _, hfalse⟩
    · rw [hmount, List.isEmpty_eq_false_iff_exists_mem.2]
      rcases List.exists_mem_of_ne_nil dir hne with ⟨x, hx⟩
      exact ⟨x, hx⟩
    · exact hfalse
  · intro c hc hf
    subst hf
    rcases activateVolume_spec noFaults id dir with ⟨_, hmount, hdir⟩ | ⟨hne, _, _⟩
    · constructor
      · rw [hmount, List.isEmpty_eq_false_iff_exists_mem.2]
        exact ⟨(id, FileContent.record c), mem_of_lookupFile_eq_some hc⟩
      · rcases hdir with ⟨hnone, _⟩ | ⟨c2, hsome, hw⟩
        · rw [hc] at hnone; exact absurd hnone (by simp)
        · rw [hc] at hsome
          have hcc : c2 = c := by
            have := Option.some.inj hsome
            cases this
            rfl
          subst hcc
          rw [hw, lookupFile_writeFile_self]
    · exfalso
      apply hne
      rcases activateVolume_spec noFaults id dir with ⟨h, _, _⟩ | h2
      · exact h
      · -- with noFaults and a parsable record, the call cannot fail
        revert hne
        simp [activateVolume, noFaults, hc]

/-- Witness for C1: the request id "A" activates a second time; its own record
file makes the directory non-empty, so the call returns false and the stored
count goes from 1 to 2. -/
theorem C1_activateVolume_mustMount_witness :
    (activateVolume noFaults "A" [("A", FileContent.record 1)]).doMountFs = false ∧
    lookupFile (activateVolume noFaults "A" [("A", FileContent.record 1)]).dir "A" =
      some (FileContent.record (1 + 1)) :=
  (C1_activateVolume_mustMount noFaults "A" [("A", FileContent.record 1)]).2.2 1
    (by decide) rfl

/-- C2: a fault-free `deactivateVolume` call that loads the record for the
request id decrements the count; at zero the record file is deleted and
`!otherVolumesPresent` is returned, otherwise the decremented record is
persisted and false is returned — in particular a stored count above 1 never
yields a "must unmount" decision. -/
theorem C2_deactivateVolume_decrement (id : String) (dir : Dir) (c : Int)
    (h : lookupFile dir id = some (FileContent.record c)) :
    (deactivateVolume noFaults id dir).err = none ∧
    (c - 1 = 0 →
      deactivateVolume noFaults id dir =
        ⟨!otherVolumesPresent (dir.take 2) id, none, removeFile dir id⟩ ∧
      lookupFile (deactivateVolume noFaults id dir).dir id = none) ∧
    (c - 1 ≠ 0 →
      deactivateVolume noFaults id dir =
        ⟨false, none, writeFile dir id (FileContent.record (c - 1))⟩ ∧
      lookupFile (deactivateVolume noFaults id dir).dir id =
        some (FileContent.record (c - 1))) ∧
    (1 < c → (deactivateVolume noFaults id dir).doUnmountFs = false) := by
  have hne : dir ≠ [] := ne_nil_of_lookupFile_eq_some h
  have hempty : dir.isEmpty = false := by
    rw [List.isEmpty_eq_false_iff_exists_mem]
    exact ⟨(id, FileContent.record c), mem_of_lookupFile_eq_some h⟩
  by_cases hz : c - 1 = 0
  · have hres : deactivateVolume noFaults id dir =
        ⟨!otherVolumesPresent (dir.take 2) id, none, removeFile dir id⟩ := by
      simp [deactivateVolume, noFaults, hempty, h, hz]
    refine ⟨by rw [hres], fun _ => ⟨hres, ?_⟩, fun hnz => absurd hz hnz, fun hgt => ?_⟩
    · rw [hres]
      exact lookupFile_removeFile_self dir id
    · exfalso; omega
  · have hres : deactivateVolume noFaults id dir =
        ⟨false, none, writeFile dir id (FileContent.record (c - 1))⟩ := by
      simp [deactivateVolume, noFaults, hempty, h, hz]
    refine ⟨by rw [hres], fun hz2 => absurd hz2 hz, fun _ => ⟨hres, ?_⟩, fun _ => by rw [hres]⟩
    rw [hres]
    exact lookupFile_writeFile_self dir id _

/-- Witness for C2: deactivating "A" with stored count 2 persists count 1 and
returns false even though "A" is the only entry in the directory. -/
theorem C2_deactivateVolume_decrement_witness :
    (deactivateVolume noFaults "A" [("A", FileContent.record 2)]).err = none ∧
    (deactivateVolume noFaults "A" [("A", FileContent.record 2)]).doUnmountFs = false :=
  ⟨(C2_deactivateVolume_decrement "A" [("A", FileContent.record 2)] 2 (by decide)).1,
   (C2_deactivateVolume_decrement "A" [("A", FileContent.record 2)] 2 (by decide)).2.2.2
     (by decide)⟩

/-- C5: an `activateVolume` call whose record file exists but fails to parse
returns an error and leaves the registry directory unchanged — no count is
guessed at, defaulted to zero, incremented or persisted.  Fault-free, the
error is precisely the "contents are invalid" one. -/
theorem C5_activateVolume_corrupt_record (f : Faults) (id : String) (dir : Dir)
    (h : lookupFile dir id = some FileContent.invalid) :
    (activateVolume f id dir).err.isSome = true ∧
    (activateVolume f id dir).dir = dir ∧
    (f = noFaults → (activateVolume f id dir).err = some DotErr.contentsInvalid) := by
  refine ⟨?_, ?_, ?_⟩
  · rcases activateVolume_spec f id dir with ⟨_, _, hdir⟩ | ⟨hne, _, _⟩
    · rcases hdir with ⟨hnone, _⟩ | ⟨c, hsome, _⟩
      · rw [h] at hnone; exact absurd hnone (by simp)
      · rw [h] at hsome; exact absurd (Option.some.inj hsome) (by simp)
    · rcases Option.ne_none_iff_exists.1 hne with ⟨e, he⟩
      rw [← he]; rfl
  · rcases activateVolume_spec f id dir with ⟨_, _, hdir⟩ | ⟨_, hsame, _⟩
    · rcases hdir with ⟨hnone, _⟩ | ⟨c, hsome, _⟩
      · rw [h] at hnone; exact absurd hnone (by simp)
      · rw [h] at hsome; exact absurd (Option.some.inj hsome) (by simp)
    · exact hsame
  · intro hf
    subst hf
    simp [activateVolume, noFaults, h]

/-- Witness for C5: a corrupt record for "A" makes activation fail without
touching the directory. -/
theorem C5_activateVolume_corrupt_record_witness :
    (activateVolume noFaults "A" [("A", FileContent.invalid)]).dir =
      [("A", FileContent.invalid)] ∧
    (activateVolume noFaults "A" [("A", FileContent.invalid)]).err =
      some DotErr.contentsInvalid :=
  ⟨(C5_activateVolume_corrupt_record noFaults "A" [("A", FileContent.invalid)]
      (by decide)).2.1,
   (C5_activateVolume_corrupt_record noFaults "A" [("A", FileContent.invalid)]
      (by decide)).2.2 rfl⟩

/-- C6: `deactivateVolume` on an empty registry directory reports the
inconsistency and still returns `mustUnmountFs = true`; with a non-empty
directory but no record file for the request id it reports the error and
returns `mustUnmountFs = !otherVolumesPresent`. -/
theorem C6_deactivateVolume_inconsistencies (f : Faults) (id : String) (dir : Dir)
    (hf : f.readDirFail = false) :
    (dir = [] → deactivateVolume f id dir = ⟨true, some DotErr.noActiveMountFiles, dir⟩) ∧
    (lookupFile dir id = none → dir ≠ [] →
      deactivateVolume f id dir =
        ⟨!otherVolumesPresent (dir.take 2) id, some DotErr.missingButExpected, dir⟩) := by
  constructor
  · intro hd
    subst hd
    simp [deactivateVolume, hf]
  · intro hl hne
    have hempty : dir.isEmpty = false := by
      rw [List.isEmpty_eq_false_iff_exists_mem]
      rcases List.exists_mem_of_ne_nil dir hne with ⟨x, hx⟩
      exact ⟨x, hx⟩
    simp [deactivateVolume, hf, hempty, hl]

/-- Witness for C6: an empty directory yields `(true, error)`; a directory
holding only "B" yields, for request id "A", `(!otherVolumesPresent, error)`. -/
theorem C6_deactivateVolume_inconsistencies_witness :
    deactivateVolume noFaults "A" [] = ⟨true, some DotErr.noActiveMountFiles, []⟩ ∧
    deactivateVolume noFaults "A" [("B", FileContent.record 1)] =
      ⟨!otherVolumesPresent (([("B", FileContent.record 1)] : Dir).take 2) "A",
        some DotErr.missingButExpected, [("B", FileContent.record 1)]⟩ :=
  ⟨(C6_deactivateVolume_inconsistencies noFaults "A" [] (by decide)).1 rfl,
   (C6_deactivateVolume_inconsistencies noFaults "A" [("B", FileContent.record 1)]
      (by decide)).2 (by decide) (by decide)⟩

/-- C9: an `activateVolume` call that returns `doMountFs = true` with no error
saw an empty registry directory — hence no pre-existing record for the
request id — and persisted a record with usage count exactly 0 + 1 = 1. -/
theorem C9_activateVolume_first_count_one (f : Faults) (id : String) (dir : Dir)
    (herr : (activateVolume f id dir).err = none)
    (hmount : (activateVolume f id dir).doMountFs = true) :
    dir = [] ∧ (activateVolume f id dir).dir = [(id, FileContent.record (0 + 1))] := by
  rcases activateVolume_spec f id dir with ⟨_, hm, hdir⟩ | ⟨hne, _, _⟩
  · rw [hmount] at hm
    have hd : dir = [] := List.isEmpty_iff.1 hm.symm
    subst hd
    refine ⟨rfl, ?_⟩
    rcases hdir with ⟨_, hw⟩ | ⟨c, hsome, _⟩
    · rw [hw]; rfl
    · exact absurd hsome (by simp [lookupFile])
  · exact absurd herr hne

/-- Witness for C9: activating "A" on an empty directory puts exactly one
record with count 1 in it. -/
theorem C9_activateVolume_first_count_one_witness :
    ([] : Dir) = [] ∧
    (activateVolume noFaults "A" []).dir = [("A", FileContent.record (0 + 1))] :=
  C9_activateVolume_first_count_one noFaults "A" [] (by decide) (by decide)

theorem dir_isEmpty_false {l : Dir} (h : l ≠ []) : l.isEmpty = false := by
  cases l with
  | nil => exact absurd rfl h
  | cons a t => rfl

theorem mem_of_mem_removeFile {dir : Dir} {name : String} {e : String × FileContent}
    (h : e ∈ removeFile dir name) : e ∈ dir := by
  induction dir with
  | nil => simp [removeFile] at h
  | cons x rest ih =>
    by_cases hx : x.1 = name
    · simp only [removeFile, hx, if_pos] at h
      exact List.mem_cons_of_mem _ (ih h)
    · simp only [removeFile, hx, if_neg, not_false_iff, List.mem_cons] at h
      rcases h with h | h
      · simp [h]
      · exact List.mem_cons_of_mem _ (ih h)

/-- With distinct file names, the sole situation in which deleting the
request id's record empties the directory is `otherVolumesPresent = false`. -/
theorem otherVolumes_false_iff_remove_nil {dir : Dir} {id : String}
    (hnodup : (namesOf dir).Nodup) {x : FileContent}
    (hl : lookupFile dir id = some x) :
    otherVolumesPresent (dir.take 2) id = false ↔ removeFile dir id = [] := by
  cases dir with
  | nil => simp [lookupFile] at hl
  | cons e rest =>
    cases rest with
    | nil =>
      have he : e.1 = id := by
        by_cases h : e.1 = id
        · exact h
        · simp [lookupFile, h] at hl
      constructor
      · intro _
        simp [removeFile, he]
      · intro _
        simp [otherVolumesPresent, he]
    | cons e2 rest2 =>
      have hothers : otherVolumesPresent ((e :: e2 :: rest2).take 2) id = true := by
        simp [otherVolumesPresent]
      constructor
      · intro h
        rw [hothers] at h
        cases h
      · intro h
        exfalso
        have hne12 : e.1 ≠ e2.1 := by
          simp only [namesOf, List.map_cons, List.nodup_cons, List.mem_cons] at hnodup
          intro hc
          exact hnodup.1 (Or.inl hc)
        by_cases he : e.1 = id
        · have : e2 ∈ removeFile (e :: e2 :: rest2) id :=
            mem_removeFile_of_mem (by simp) (by rw [← he] at *; exact fun hc => hne12 hc.symm)
          rw [h] at this
          simp at this
        · have : e ∈ removeFile (e :: e2 :: rest2) id :=
            mem_removeFile_of_mem (by simp) he
          rw [h] at this
          simp at this

theorem balanced_step (s : RunState) (op : Op) (h : balanced s) :
    balanced (step s op) := by
  obtain ⟨hnodup, hcount⟩ := h
  cases op with
  | activate id f =>
    rcases activateVolume_spec f id s.dir with ⟨herr, hmount, hdir⟩ | ⟨herr, hdir2, hmount⟩
    · obtain ⟨c, hw⟩ :
          ∃ c, (activateVolume f id s.dir).dir = writeFile s.dir id (FileContent.record c) := by
        rcases hdir with ⟨_, hw⟩ | ⟨c2, _, hw⟩
        exacts [⟨0 + 1, hw⟩, ⟨c2 + 1, hw⟩]
      have hsome : (activateVolume f id s.dir).err.isSome = false := by
        rw [herr]; rfl
      constructor
      · simp only [step]
        rw [hw]
        exact nodup_namesOf_writeFile hnodup
      · simp only [step, hsome, hmount, hw]
        intro he
        have hs : s.errs = 0 := by simpa using he
        have hmain := hcount hs
        have hne : (writeFile s.dir id (FileContent.record c)).isEmpty = false :=
          dir_isEmpty_false (writeFile_ne_nil _ _ _)
        simp only [hne]
        cases hd : s.dir.isEmpty <;> simp [hd] at hmain ⊢ <;> omega
    · have hsome : (activateVolume f id s.dir).err.isSome = true :=
        Option.isSome_iff_ne_none.2 herr
      constructor
      · simp only [step]
        rw [hdir2]
        exact hnodup
      · simp only [step, hsome]
        intro he
        exfalso
        simp at he
  | deactivate id f =>
    rcases deactivateVolume_spec f id s.dir with ⟨herr, hdir2⟩ | ⟨herr, c, hl, hbr⟩
    · have hsome : (deactivateVolume f id s.dir).err.isSome = true :=
        Option.isSome_iff_ne_none.2 herr
      constructor
      · simp only [step]
        rw [hdir2]
        exact hnodup
      · simp only [step, hsome]
        intro he
        exfalso
        simp at he
    · have hdne : s.dir ≠ [] := ne_nil_of_lookupFile_eq_some hl
      have hde : s.dir.isEmpty = false := dir_isEmpty_false hdne
      rcases hbr with ⟨hz, hres⟩ | ⟨hz, hres⟩
      · have hiff := otherVolumes_false_iff_remove_nil hnodup hl
        constructor
        · simp only [step, hres]
          exact nodup_namesOf_removeFile hnodup
        · simp only [step, hres]
          intro he
          have hs : s.errs = 0 := by simpa using he
          have hmain := hcount hs
          simp only [hde] at hmain
          cases ho : otherVolumesPresent (s.dir.take 2) id
          · have hrm : removeFile s.dir id = [] := hiff.1 ho
            simp [ho, hrm] at hmain ⊢
            omega
          · have hrm : removeFile s.dir id ≠ [] := by
              intro hc
              have := hiff.2 hc
              rw [ho] at this
              cases this
            simp [ho, dir_isEmpty_false hrm] at hmain ⊢
            omega
      · constructor
        · simp only [step, hres]
          exact nodup_namesOf_writeFile hnodup
        · simp only [step, hres]
          intro he
          have hs : s.errs = 0 := by simpa using he
          have hmain := hcount hs
          simp only [hde] at hmain
          simp [dir_isEmpty_false
            (writeFile_ne_nil s.dir id (FileContent.record (c - 1)))] at hmain ⊢
          omega

theorem balanced_run (ops : List Op) (s : RunState) (h : balanced s) :
    balanced (run ops s) := by
  induction ops generalizing s with
  | nil => exact h
  | cons op rest ih => exact ih (step s op) (balanced_step s op h)

/-- C3 as stated is false: a lone `deactivateVolume` call on the
already-empty registry starts and ends with an empty directory, returns
`mustUnmountFs = true` (while reporting the bookkeeping inconsistency), and
no activate call ever returned true — one "must unmount" against zero
"must mount". -/
theorem C3_conservation_counterexample :
    (run [Op.deactivate "A" noFaults] startState).dir = [] ∧
    ¬((run [Op.deactivate "A" noFaults] startState).mountsTrue =
      (run [Op.deactivate "A" noFaults] startState).unmountsTrue) := by decide

/-- C3 (amended): for every sequence of activate/deactivate calls on one
volume that starts with an empty registry directory, in which no call
returned an error, if the directory is empty again at the end then the number
of activate calls that returned `mustMountFs = true` equals the number of
deactivate calls that returned `mustUnmountFs = true`. -/
theorem C3_conservation_of_mount_state (ops : List Op)
    (herr : (run ops startState).errs = 0)
    (hempty : (run ops startState).dir = []) :
    (run ops startState).mountsTrue = (run ops startState).unmountsTrue := by
  have h := balanced_run ops startState ⟨by simp [startState, namesOf], by simp [startState]⟩
  have h2 := h.2 herr
  rw [hempty] at h2
  simpa using h2

/-- Witness for C3 (amended): one activation of "A" followed by its
deactivation; both decisions are true and the registry ends empty. -/
theorem C3_conservation_of_mount_state_witness :
    (run [Op.activate "A" noFaults, Op.deactivate "A" noFaults] startState).mountsTrue =
      (run [Op.activate "A" noFaults, Op.deactivate "A" noFaults] startState).unmountsTrue :=
  C3_conservation_of_mount_state [Op.activate "A" noFaults, Op.deactivate "A" noFaults]
    (by decide) (by decide)

/-- C4: in every state reachable by a trace of activate/deactivate calls
(with any injected I/O faults) from the empty registry, each record file
present in the directory holds a parsable usage count of at least 1: a count
reaching zero deletes the file, and a zero (or lower) count is never
persisted. -/
theorem recordsValid_step (s : RunState) (op : Op)
    (hs : ∀ x ∈ s.dir, ∃ k : Int, x.2 = FileContent.record k ∧ 1 ≤ k) :
    ∀ x ∈ (step s op).dir, ∃ k : Int, x.2 = FileContent.record k ∧ 1 ≤ k := by
  cases op with
  | activate id f =>
    rcases activateVolume_spec f id s.dir with ⟨_, _, hdir⟩ | ⟨_, hdir2, _⟩
    · intro x hx
      rcases hdir with ⟨_, hw⟩ | ⟨c, hl, hw⟩
      · simp only [step, hw] at hx
        rcases mem_writeFile hx with hmem | hx2
        · exact hs x hmem
        · exact ⟨0 + 1, by rw [hx2], by omega⟩
      · simp only [step, hw] at hx
        rcases mem_writeFile hx with hmem | hx2
        · exact hs x hmem
        · obtain ⟨k, hk, hk1⟩ := hs (id, FileContent.record c) (mem_of_lookupFile_eq_some hl)
          have hck : c = k := by
            cases hk
            rfl
          exact ⟨c + 1, by rw [hx2], by omega⟩
    · intro x hx
      simp only [step, hdir2] at hx
      exact hs x hx
  | deactivate id f =>
    rcases deactivateVolume_spec f id s.dir with ⟨_, hdir2⟩ | ⟨_, c, hl, hbr⟩
    · intro x hx
      simp only [step, hdir2] at hx
      exact hs x hx
    · obtain ⟨k, hk, hk1⟩ := hs (id, FileContent.record c) (mem_of_lookupFile_eq_some hl)
      have hck : c = k := by
        cases hk
        rfl
      rcases hbr with ⟨hz, hres⟩ | ⟨hz, hres⟩
      · intro x hx
        simp only [step, hres] at hx
        exact hs x (mem_of_mem_removeFile hx)
      · intro x hx
        simp only [step, hres] at hx
        rcases mem_writeFile hx with hmem | hx2
        · exact hs x hmem
        · exact ⟨c - 1, by rw [hx2], by omega⟩

theorem recordsValid_run (ops : List Op) (s : RunState)
    (hs : ∀ x ∈ s.dir, ∃ k : Int, x.2 = FileContent.record k ∧ 1 ≤ k) :
    ∀ x ∈ (run ops s).dir, ∃ k : Int, x.2 = FileContent.record k ∧ 1 ≤ k := by
  induction ops generalizing s with
  | nil => exact hs
  | cons op rest ih => exact ih (step s op) (recordsValid_step s op hs)

/-- C4: in every state reachable by a trace of activate/deactivate calls
(with any injected I/O faults) from the empty registry, each record file
present in the directory holds a parsable usage count of at least 1: a count
reaching zero deletes the file, and a zero (or lower) count is never
persisted. -/
theorem C4_records_at_least_one (ops : List Op) (e : String × FileContent)
    (he : e ∈ (run ops startState).dir) :
    ∃ k : Int, e.2 = FileContent.record k ∧ 1 ≤ k :=
  recordsValid_run ops startState (by simp [startState]) e he

/-- Witness for C4: after one activation of "A" from the empty registry, the
record present for "A" holds count 1. -/
theorem C4_records_at_least_one_witness :
    ("A", FileContent.record 1) ∈ (run [Op.activate "A" noFaults] startState).dir ∧
    ∃ k : Int, (("A", FileContent.record 1) : String × FileContent).2 =
      FileContent.record k ∧ 1 ≤ k :=
  ⟨by decide,
   C4_records_at_least_one [Op.activate "A" noFaults] ("A", FileContent.record 1) (by decide)⟩

/-- C7: during boot recovery over all known volumes, a per-volume reset
reporting "busy" is skipped without failing startup; a volume with no active
mount has its tree reset (it appears in the list of reset volumes); any other
reset error aborts startup with that error. -/
theorem C7_boot_recovery (reset : String → ResetOutcome) (vols : List String) :
    ((∀ v ∈ vols, (reset v).isFailed = false) →
      newDockerOnTopResetLoop reset vols =
        Except.ok (vols.filter (fun v => reset v == ResetOutcome.ok))) ∧
    (∀ pre v post e, vols = pre ++ v :: post → reset v = ResetOutcome.failed e →
      (∀ u ∈ pre, (reset u).isFailed = false) →
      newDockerOnTopResetLoop reset vols = Except.error e) := by
  constructor
  · intro hnf
    induction vols with
    | nil => rfl
    | cons v rest ih =>
      have hv := hnf v (List.mem_cons_self _ _)
      have hrest : ∀ u ∈ rest, (reset u).isFailed = false :=
        fun u hu => hnf u (List.mem_cons_of_mem _ hu)
      cases hr : reset v with
      | ok =>
        simp only [newDockerOnTopResetLoop, hr, ih hrest, Except.map, List.filter_cons]
        simp [hr]
      | busy =>
        simp only [newDockerOnTopResetLoop, hr, ih hrest, List.filter_cons]
        simp [hr]
      | failed e =>
        rw [hr] at hv
        simp [ResetOutcome.isFailed] at hv
  · intro pre v post e hsplit hfail hpre
    subst hsplit
    induction pre with
    | nil =>
      simp only [List.nil_append, newDockerOnTopResetLoop, hfail]
    | cons u pre2 ih =>
      have hu := hpre u (List.mem_cons_self _ _)
      have hpre2 : ∀ w ∈ pre2, (reset w).isFailed = false :=
        fun w hw => hpre w (List.mem_cons_of_mem _ hw)
      cases hr : reset u with
      | ok =>
        simp only [List.cons_append, newDockerOnTopResetLoop, hr, List.append_eq,
          ih hpre2, Except.map]
      | busy =>
        simp only [List.cons_append, newDockerOnTopResetLoop, hr, List.append_eq,
          ih hpre2]
      | failed e2 =>
        rw [hr] at hu
        simp [ResetOutcome.isFailed] at hu

/-- Witness for C7: with "a" busy and "b" idle, startup succeeds and resets
exactly "b". -/
theorem C7_boot_recovery_witness :
    newDockerOnTopResetLoop resetBusyA ["a", "b"] =
      Except.ok ((["a", "b"] : List String).filter
        (fun v => resetBusyA v == ResetOutcome.ok)) :=
  (C7_boot_recovery resetBusyA ["a", "b"]).1 (by decide)

/-- C8: when deactivation succeeded with `mustUnmountFs = true` but the
physical unmount syscall fails, `Unmount` propagates that error verbatim and
leaves the registry exactly as deactivation left it — the record is not
re-incremented or re-created. -/
theorem C8_unmount_failure_propagated (env : SysEnv) (f : Faults) (id : String)
    (dir : Dir) (e : Nat)
    (herr : (deactivateVolume f id dir).err = none)
    (hun : (deactivateVolume f id dir).doUnmountFs = true)
    (hfail : env.unmountErr = some e) :
    Unmount env f id dir =
      (some (UnmountError.unmountSyscallFailed e), (deactivateVolume f id dir).dir) := by
  simp [Unmount, herr, hun, hfail]

/-- Witness for C8: "A" was the last user (count 1, sole entry); the unmount
syscall fails with error 5; the error is returned and the registry stays as
deactivation left it (the record for "A" already removed). -/
theorem C8_unmount_failure_propagated_witness :
    Unmount ⟨some 5, none⟩ noFaults "A" [("A", FileContent.record 1)] =
      (some (UnmountError.unmountSyscallFailed 5),
        (deactivateVolume noFaults "A" [("A", FileContent.record 1)]).dir) :=
  C8_unmount_failure_propagated ⟨some 5, none⟩ noFaults "A"
    [("A", FileContent.record 1)] 5 (by decide) (by decide) rfl

/-- C10: when deactivation succeeded with `mustUnmountFs = true` and the
physical unmount syscall succeeds, an error from the post-unmount tree
teardown is returned to the caller, although the overlay was unmounted and
the registry is already as deactivation left it. -/
theorem C10_teardown_error_returned (env : SysEnv) (f : Faults) (id : String)
    (dir : Dir) (e : Nat)
    (herr : (deactivateVolume f id dir).err = none)
    (hun : (deactivateVolume f id dir).doUnmountFs = true)
    (hok : env.unmountErr = none)
    (hpost : env.postUnmountErr = some e) :
    Unmount env f id dir =
      (some (UnmountError.postUnmountFailed e), (deactivateVolume f id dir).dir) := by
  simp [Unmount, herr, hun, hok, hpost]

/-- Witness for C10: the overlay for the last user "A" is unmounted, the
teardown fails with error 7, and `Unmount` reports failure while the record
for "A" is already removed from the registry. -/
theorem C10_teardown_error_returned_witness :
    Unmount ⟨none, some 7⟩ noFaults "A" [("A", FileContent.record 1)] =
      (some (UnmountError.postUnmountFailed 7),
        (deactivateVolume noFaults "A" [("A", FileContent.record 1)]).dir) :=
  C10_teardown_error_returned ⟨none, some 7⟩ noFaults "A"
    [("A", FileContent.record 1)] 7 (by decide) (by decide) rfl rfl
